import Mathlib

/-!
Shallow embedding of `src/bot.py` (a Telegram group-chat companion bot).

Strings are modelled as `List Char` where character-level reasoning is
needed (Python string slicing, `str.strip`, `re.sub`), wrapped back into
`String` at the interfaces.  Monotonic clock readings are modelled as `ℚ`.
The per-chat cooldown map `LAST_ROAST_AT` is modelled as a function
`Int → Option ℚ` (`none` = no entry, as for a missing dict key).
-/

namespace Sophie

/-- Python whitespace predicate used by `str.strip()` and `\s` in regexes
(ASCII part: space, tab, newline, carriage return, vertical tab, form feed). -/
def pyIsSpace (c : Char) : Bool :=
  c == ' ' || c == '\t' || c == '\n' || c == '\r' ||
    c == Char.ofNat 11 || c == Char.ofNat 12

/-- Python `str.strip()`: drop leading and trailing whitespace. -/
def pyStrip (l : List Char) : List Char :=
  ((l.dropWhile pyIsSpace).reverse.dropWhile pyIsSpace).reverse

/-- `str.strip()` lifted to `String`. -/
def pyStripS (s : String) : String :=
  String.mk (pyStrip s.data)

/-- Case-insensitive prefix match: does `pat` (lowered) start the lowered text?
Used to model `re.IGNORECASE` literal matching and `in` on lowered strings. -/
def matchCI : List Char → List Char → Bool
  | [], _ => true
  | _ :: _, [] => false
  | p :: ps, c :: cs => (Char.toLower c == Char.toLower p) && matchCI ps cs

/-- Case-insensitive substring containment:
models Python `pat.lower() in text.lower()`. -/
def containsCI (pat : List Char) : List Char → Bool
  | [] => matchCI pat []
  | c :: rest => matchCI pat (c :: rest) || containsCI pat rest

/-!  Cooldown tracker (`roast_allowed`, src/bot.py lines 95-102).

```python
def roast_allowed(chat_id: int) -> bool:
    now = asyncio.get_event_loop().time()
    last = LAST_ROAST_AT.get(chat_id, 0.0)
    if now - last < 120:
        return False
    LAST_ROAST_AT[chat_id] = now
    return True
```

`now` is passed explicitly; the function returns the boolean together with
the updated `LAST_ROAST_AT` map. -/

/-- The cooldown map: chat id to last-roast monotonic time (missing key = `none`). -/
def CooldownMap : Type := Int → Option ℚ

/-- `roast_allowed`, as a pure function of the clock reading and the map. -/
def roast_allowed (now : ℚ) (st : CooldownMap) (chat : Int) : Bool × CooldownMap :=
  let last : ℚ := (st chat).getD 0
  if now - last < 120 then (false, st)
  else (true, fun c => if c = chat then some now else st c)

/-!  Text normalization (`normalize_text`, src/bot.py lines 67-68):
`re.sub(r"\s+", " ", s.strip())` — strip, then collapse each whitespace run
to a single space. -/

/-- Replace every maximal run of whitespace by one space
(`re.sub(r"\s+", " ", ·)`): a space is emitted at the first character of a
run, the rest of the run is skipped (`inRun` says whether the previous
character belonged to a run). -/
def collapseWSAux : Bool → List Char → List Char
  | _, [] => []
  | inRun, c :: rest =>
    if pyIsSpace c then
      if inRun then collapseWSAux true rest
      else ' ' :: collapseWSAux true rest
    else c :: collapseWSAux false rest

/-- `re.sub(r"\s+", " ", ·)` on a whole string. -/
def collapseWS (l : List Char) : List Char := collapseWSAux false l

/-- `normalize_text(s)`. -/
def normalize_text (l : List Char) : List Char :=
  collapseWS (pyStrip l)

/-!  Conversation context (`CHAT_HISTORY`, src/bot.py line 56):
`defaultdict(lambda: deque(maxlen=3))` — a per-chat deque of capacity 3,
appended on line 178; appending to a full deque evicts the leftmost entry. -/

/-- Append to a `deque(maxlen=3)`: keep only the last 3 entries. -/
def ctxAppend (l : List String) (s : String) : List String :=
  (l ++ [s]).drop ((l.length + 1) - 3)

/-!  Trigger classifier (`should_answer_with_llm`, src/bot.py lines 70-84).

```python
if bot_username and f"@{bot_username}".lower() in msg.text.lower():
    return True
if msg.reply_to_message and msg.reply_to_message.from_user:
    if msg.reply_to_message.from_user.username == bot_username:
        return True
return False
```
-/

/-- The message fields the classifier reads: raw text, and the username of
the sender of the replied-to message (`none` when the message is not a reply,
has no `from_user`, or that user has no username — all of which make the
Python `==` comparison false). -/
structure Msg where
  text : List Char
  replySenderUsername : Option String

/-- `should_answer_with_llm`. -/
def should_answer_with_llm (m : Msg) (botUsername : String) : Bool :=
  if botUsername ≠ "" && containsCI ('@' :: botUsername.data) m.text then true
  else m.replySenderUsername == some botUsername

/-!  Prompt builder (`build_prompt`, src/bot.py lines 104-119).

```python
cleaned = re.sub(rf"@{re.escape(bot_username)}", "", user_text, flags=re.IGNORECASE).strip()
cleaned = cleaned[:800]
context_block = "\n".join(f"- {h}" for h in list(history)[-2:])
return f"""...{context_block}...{cleaned}..."""
```

`re.sub` with a literal (escaped) pattern and empty replacement deletes the
non-overlapping occurrences scanning left to right; `re.IGNORECASE` is
modelled by lowered comparison (`matchCI`).  The pattern `"@" + username`
is never empty, so it is passed as head `p` plus tail `ps`. -/

/-- `re.sub(pat, "", text, flags=re.IGNORECASE)` for the literal pattern
`p :: ps`: scan left to right, deleting each leftmost match. -/
def reSubCI (p : Char) (ps : List Char) : List Char → List Char
  | [] => []
  | c :: rest =>
    if matchCI (p :: ps) (c :: rest) then reSubCI p ps (rest.drop ps.length)
    else c :: reSubCI p ps rest
termination_by l => l.length
decreasing_by
· simp only [List.length_cons, List.length_drop]
  omega
· simp

/-- The `cleaned` value of `build_prompt`: mention removal, strip, cut to 800. -/
def cleanedText (botUsername : String) (userText : List Char) : List Char :=
  (pyStrip (reSubCI '@' botUsername.data userText)).take 800

/-- Python `list(history)[-2:]`: the last at most 2 entries. -/
def lastTwo (hist : List String) : List String :=
  hist.drop (hist.length - 2)

/-- The `context_block` of `build_prompt`. -/
def contextBlock (hist : List String) : String :=
  String.intercalate "\n" ((lastTwo hist).map (fun h => "- " ++ h))

/-- `build_prompt(user_text, history, bot_username)`: the full template string. -/
def build_prompt (userText : List Char) (hist : List String) (botUsername : String) : String :=
  "You are a bot in a telegram groupchat. Reply in 1-4 sentences and be helpful and clear\n\nRecent chat context:\n"
    ++ contextBlock hist
    ++ "\n\nThe user is addressing you directly and asked:\n"
    ++ String.mk (cleanedText botUsername userText)
    ++ "\n\nReply:"

/-!  Completion client (`hf_generate`, src/bot.py lines 121-158).

```python
for attempt in range(3):
    try:
        async with session.post(...) as r:
            if r.status == 200:
                data = await r.json()
                return data["choices"][0]["message"]["content"].strip()
            if r.status in (429, 503):
                await asyncio.sleep(1.2 + attempt * 0.8)
                continue
            txt = await r.text()
            return f"(LLM error {r.status}) {txt[:3500]}…"
    except asyncio.TimeoutError:
        if attempt == 2:
            return "Sorry love—my brain froze for a second. Try again?"
    except Exception:
        if attempt == 2:
            return "Oops love… something broke on my side. Try again in a moment?"
return "I’m a bit busy right now, my dear—try again shortly."
```

The outcome of the `i`-th POST is abstracted by `HfResponse`:
`ok content` is an HTTP 200 whose parsed body yields
`data["choices"][0]["message"]["content"] = content`; `status code body` is
any non-200 HTTP response; `timeout` is `asyncio.TimeoutError`; `exn` is any
other exception raised inside the `try` (including a 200 whose body fails to
parse).  The result records the reply, the list of back-off sleep durations
in seconds, and how many POST attempts were made. -/

/-- Outcome of one POST attempt. -/
inductive HfResponse where
  | ok (content : String)
  | status (code : Nat) (body : String)
  | timeout
  | exn
deriving DecidableEq

/-- What a run of `hf_generate` did: the returned reply, the back-off sleeps
performed (in order, seconds), and the number of POST attempts issued. -/
structure HfResult where
  reply : String
  sleeps : List ℚ
  attempts : Nat
deriving DecidableEq

/-- `"I’m a bit busy right now, my dear—try again shortly."` (line 158). -/
def busyFallback : String := "I’m a bit busy right now, my dear—try again shortly."

/-- `"Sorry love—my brain froze for a second. Try again?"` (line 153). -/
def timeoutFallback : String := "Sorry love—my brain froze for a second. Try again?"

/-- `"Oops love… something broke on my side. Try again in a moment?"` (line 156). -/
def exnFallback : String := "Oops love… something broke on my side. Try again in a moment?"

/-- `f"(LLM error {r.status}) {txt[:3500]}…"` (line 149). -/
def llmErrorMsg (code : Nat) (body : String) : String :=
  "(LLM error " ++ toString code ++ ") " ++ String.mk (body.data.take 3500) ++ "…"

/-- The `for attempt in range(3)` loop, with `fuel` iterations left and the
current `attempt` index (the run of interest keeps `fuel + attempt = 3`).
`sleeps` and `n` accumulate the sleeps performed and attempts issued so far. -/
def hfLoop (rs : Nat → HfResponse) : Nat → Nat → List ℚ → Nat → HfResult
  | 0, _, sleeps, n => ⟨busyFallback, sleeps, n⟩
  | fuel + 1, attempt, sleeps, n =>
    match rs attempt with
    | .ok content => ⟨pyStripS content, sleeps, n + 1⟩
    | .status code body =>
      if code = 429 ∨ code = 503 then
        hfLoop rs fuel (attempt + 1) (sleeps ++ [(12 + 8 * (attempt : ℚ)) / 10]) (n + 1)
      else ⟨llmErrorMsg code body, sleeps, n + 1⟩
    | .timeout =>
      if attempt = 2 then ⟨timeoutFallback, sleeps, n + 1⟩
      else hfLoop rs fuel (attempt + 1) sleeps (n + 1)
    | .exn =>
      if attempt = 2 then ⟨exnFallback, sleeps, n + 1⟩
      else hfLoop rs fuel (attempt + 1) sleeps (n + 1)

/-- `hf_generate`, given the outcome of each POST attempt. -/
def hf_generate (rs : Nat → HfResponse) : HfResult :=
  hfLoop rs 3 0 [] 0

/-!  Reply post-processing (`on_text`, src/bot.py lines 186-193).

```python
reply = (reply or "").strip()
if not reply:
    reply = "What love? Ask me again, please."
if len(reply) > 3500:
    reply = reply[:3500].rsplit(" ", 1)[0] + "…"
```
-/

/-- `"What love? Ask me again, please."` (line 190). -/
def emptyReplyFallback : String := "What love? Ask me again, please."

/-- Python `l.rsplit(" ", 1)[0]`: everything before the last space character,
or the whole string when it has no space. -/
def rsplitHead (l : List Char) : List Char :=
  if l.contains ' ' then ((l.reverse.dropWhile (fun c => !(c == ' '))).drop 1).reverse
  else l

/-- The reply post-processing performed by `on_text` before sending. -/
def postprocess (reply : String) : String :=
  let r := pyStrip reply.data
  let r := if r.isEmpty then emptyReplyFallback.data else r
  if 3500 < r.length then String.mk (rsplitHead (r.take 3500) ++ ['…'])
  else String.mk r

/-!  Handler core (`on_text`, src/bot.py lines 163-197): the part of the
handler that decides context recording and the LLM path.

```python
text = normalize_text(update.message.text)
if not text.startswith("/"):
    CHAT_HISTORY[chat_id].append(f"{user_name}: {text[:120]}")
if should_answer_with_llm(update, bot_username):
    prompt = build_prompt(text, CHAT_HISTORY[chat_id], bot_username)
    ...
```
-/

/-- One `on_text` dispatch on a group message: returns the updated chat
history and, when the LLM path is taken, the prompt built from the updated
history. -/
def on_text_core (hist : List String) (userName : String) (m : Msg)
    (botUsername : String) : List String × Option String :=
  let text := normalize_text m.text
  let hist2 :=
    if text.head? = some '/' then hist
    else ctxAppend hist (userName ++ ": " ++ String.mk (text.take 120))
  if should_answer_with_llm m botUsername then
    (hist2, some (build_prompt text hist2 botUsername))
  else (hist2, none)

/-!  Step lemmas for the `hf_generate` retry loop. -/

theorem hfLoop_ok (rs : Nat → HfResponse) (fuel attempt : Nat) (sleeps : List ℚ)
    (n : Nat) (c : String) (h : rs attempt = HfResponse.ok c) :
    hfLoop rs (fuel + 1) attempt sleeps n = ⟨pyStripS c, sleeps, n + 1⟩ := by
  simp [hfLoop, h]

theorem hfLoop_retry (rs : Nat → HfResponse) (fuel attempt : Nat) (sleeps : List ℚ)
    (n : Nat) (code : Nat) (body : String) (h : rs attempt = HfResponse.status code body)
    (hc : code = 429 ∨ code = 503) :
    hfLoop rs (fuel + 1) attempt sleeps n =
      hfLoop rs fuel (attempt + 1) (sleeps ++ [(12 + 8 * (attempt : ℚ)) / 10]) (n + 1) := by
  simp only [hfLoop, h]
  rw [if_pos hc]

theorem hfLoop_fail (rs : Nat → HfResponse) (fuel attempt : Nat) (sleeps : List ℚ)
    (n : Nat) (code : Nat) (body : String) (h : rs attempt = HfResponse.status code body)
    (h429 : code ≠ 429) (h503 : code ≠ 503) :
    hfLoop rs (fuel + 1) attempt sleeps n = ⟨llmErrorMsg code body, sleeps, n + 1⟩ := by
  simp only [hfLoop, h]
  rw [if_neg]
  rintro (rfl | rfl)
  · exact h429 rfl
  · exact h503 rfl

theorem hfLoop_timeout_retry (rs : Nat → HfResponse) (fuel attempt : Nat) (sleeps : List ℚ)
    (n : Nat) (h : rs attempt = HfResponse.timeout) (ha : attempt ≠ 2) :
    hfLoop rs (fuel + 1) attempt sleeps n = hfLoop rs fuel (attempt + 1) sleeps (n + 1) := by
  simp [hfLoop, h, ha]

theorem hfLoop_timeout_last (rs : Nat → HfResponse) (fuel : Nat) (sleeps : List ℚ)
    (n : Nat) (h : rs 2 = HfResponse.timeout) :
    hfLoop rs (fuel + 1) 2 sleeps n = ⟨timeoutFallback, sleeps, n + 1⟩ := by
  simp [hfLoop, h]

theorem hfLoop_exn_retry (rs : Nat → HfResponse) (fuel attempt : Nat) (sleeps : List ℚ)
    (n : Nat) (h : rs attempt = HfResponse.exn) (ha : attempt ≠ 2) :
    hfLoop rs (fuel + 1) attempt sleeps n = hfLoop rs fuel (attempt + 1) sleeps (n + 1) := by
  simp [hfLoop, h, ha]

theorem hfLoop_exn_last (rs : Nat → HfResponse) (fuel : Nat) (sleeps : List ℚ)
    (n : Nat) (h : rs 2 = HfResponse.exn) :
    hfLoop rs (fuel + 1) 2 sleeps n = ⟨exnFallback, sleeps, n + 1⟩ := by
  simp [hfLoop, h]

/-- Full run when every attempt hits the 429/503 branch. -/
theorem hf_generate_all_retry (rs : Nat → HfResponse)
    (h : ∀ i, i < 3 → ∃ code body,
      rs i = HfResponse.status code body ∧ (code = 429 ∨ code = 503)) :
    hf_generate rs = ⟨busyFallback, [6/5, 2, 14/5], 3⟩ := by
  obtain ⟨c0, b0, e0, hc0⟩ := h 0 (by omega)
  obtain ⟨c1, b1, e1, hc1⟩ := h 1 (by omega)
  obtain ⟨c2, b2, e2, hc2⟩ := h 2 (by omega)
  have s0 := hfLoop_retry rs 2 0 [] 0 c0 b0 e0 hc0
  have s1 := hfLoop_retry rs 1 1 [(6 : ℚ)/5] 1 c1 b1 e1 hc1
  have s2 := hfLoop_retry rs 0 2 [(6 : ℚ)/5, 2] 2 c2 b2 e2 hc2
  norm_num at s0 s1 s2
  rw [hf_generate, s0, s1, s2]
  rfl

/-- Full run when every attempt times out. -/
theorem hf_generate_all_timeout (rs : Nat → HfResponse)
    (h : ∀ i, i < 3 → rs i = HfResponse.timeout) :
    hf_generate rs = ⟨timeoutFallback, [], 3⟩ := by
  have s0 := hfLoop_timeout_retry rs 2 0 [] 0 (h 0 (by omega)) (by omega)
  have s1 := hfLoop_timeout_retry rs 1 1 [] 1 (h 1 (by omega)) (by omega)
  have s2 := hfLoop_timeout_last rs 0 [] 2 (h 2 (by omega))
  norm_num at s0 s1 s2
  rw [hf_generate, s0, s1, s2]

/-- Full run when every attempt raises a non-timeout exception. -/
theorem hf_generate_all_exn (rs : Nat → HfResponse)
    (h : ∀ i, i < 3 → rs i = HfResponse.exn) :
    hf_generate rs = ⟨exnFallback, [], 3⟩ := by
  have s0 := hfLoop_exn_retry rs 2 0 [] 0 (h 0 (by omega)) (by omega)
  have s1 := hfLoop_exn_retry rs 1 1 [] 1 (h 1 (by omega)) (by omega)
  have s2 := hfLoop_exn_last rs 0 [] 2 (h 2 (by omega))
  norm_num at s0 s1 s2
  rw [hf_generate, s0, s1, s2]

/-- C2: every 429/503 response on 0-based attempt `i` is followed by a sleep of
exactly `1.2 + 0.8 * i` seconds before the next attempt (schedule 1.2 s, 2.0 s,
2.8 s), and when all 3 attempts end in the 429/503 branch the function returns
the distinct "busy" fallback string after exactly those three sleeps. -/
theorem C2_rate_limit_backoff :
    (∀ (rs : Nat → HfResponse) (fuel attempt : Nat) (sleeps : List ℚ) (n code : Nat)
      (body : String),
      rs attempt = HfResponse.status code body → (code = 429 ∨ code = 503) →
      hfLoop rs (fuel + 1) attempt sleeps n =
        hfLoop rs fuel (attempt + 1) (sleeps ++ [(1.2 : ℚ) + 0.8 * attempt]) (n + 1)) ∧
    (∀ rs : Nat → HfResponse,
      (∀ i, i < 3 → ∃ code body,
        rs i = HfResponse.status code body ∧ (code = 429 ∨ code = 503)) →
      hf_generate rs = ⟨busyFallback, [(1.2 : ℚ), 2, 2.8], 3⟩) := by
  have hq : ∀ a : Nat, ((12 + 8 * (a : ℚ)) / 10) = (1.2 : ℚ) + 0.8 * a := by
    intro a
    norm_num
    ring
  constructor
  · intro rs fuel attempt sleeps n code body h hc
    rw [hfLoop_retry rs fuel attempt sleeps n code body h hc, hq]
  · intro rs h
    rw [hf_generate_all_retry rs h]
    norm_num

/-- C2 witness: an endpoint that always answers 429 yields the busy fallback
after 3 attempts with back-off sleeps 1.2 s, 2.0 s, 2.8 s. -/
theorem C2_rate_limit_backoff_witness :
    hf_generate (fun _ => HfResponse.status 429 "rate limited") =
      ⟨busyFallback, [(1.2 : ℚ), 2, 2.8], 3⟩ :=
  C2_rate_limit_backoff.2 (fun _ => HfResponse.status 429 "rate limited")
    (fun _ _ => ⟨429, "rate limited", rfl, Or.inl rfl⟩)

/-- C3: a timeout on attempt 0 or 1 is swallowed and the loop retries at once
with no sleep; a timeout on the 3rd attempt (index 2) returns the "brain froze"
fallback; any other exception behaves the same with its own fallback string; an
endpoint that always times out yields the timeout fallback after exactly 3
attempts (and the always-failing endpoint the exception fallback). -/
theorem C3_timeout_and_exception_swallowed :
    (∀ (rs : Nat → HfResponse) (fuel attempt : Nat) (sleeps : List ℚ) (n : Nat),
      rs attempt = HfResponse.timeout → attempt ≠ 2 →
      hfLoop rs (fuel + 1) attempt sleeps n = hfLoop rs fuel (attempt + 1) sleeps (n + 1)) ∧
    (∀ (rs : Nat → HfResponse) (fuel : Nat) (sleeps : List ℚ) (n : Nat),
      rs 2 = HfResponse.timeout →
      hfLoop rs (fuel + 1) 2 sleeps n = ⟨timeoutFallback, sleeps, n + 1⟩) ∧
    (∀ rs : Nat → HfResponse, (∀ i, i < 3 → rs i = HfResponse.timeout) →
      hf_generate rs = ⟨timeoutFallback, [], 3⟩) ∧
    (∀ (rs : Nat → HfResponse) (fuel attempt : Nat) (sleeps : List ℚ) (n : Nat),
      rs attempt = HfResponse.exn → attempt ≠ 2 →
      hfLoop rs (fuel + 1) attempt sleeps n = hfLoop rs fuel (attempt + 1) sleeps (n + 1)) ∧
    (∀ (rs : Nat → HfResponse) (fuel : Nat) (sleeps : List ℚ) (n : Nat),
      rs 2 = HfResponse.exn →
      hfLoop rs (fuel + 1) 2 sleeps n = ⟨exnFallback, sleeps, n + 1⟩) ∧
    (∀ rs : Nat → HfResponse, (∀ i, i < 3 → rs i = HfResponse.exn) →
      hf_generate rs = ⟨exnFallback, [], 3⟩) :=
  ⟨hfLoop_timeout_retry, hfLoop_timeout_last, hf_generate_all_timeout,
    hfLoop_exn_retry, hfLoop_exn_last, hf_generate_all_exn⟩

/-- C3 witness: an endpoint that always times out gives the "brain froze"
fallback after exactly 3 attempts and no sleeps; one that always raises gives
the "something broke" fallback. -/
theorem C3_timeout_and_exception_swallowed_witness :
    hf_generate (fun _ => HfResponse.timeout) = ⟨timeoutFallback, [], 3⟩ ∧
    hf_generate (fun _ => HfResponse.exn) = ⟨exnFallback, [], 3⟩ :=
  ⟨C3_timeout_and_exception_swallowed.2.2.1 (fun _ => HfResponse.timeout) (fun _ _ => rfl),
    C3_timeout_and_exception_swallowed.2.2.2.2.2 (fun _ => HfResponse.exn) (fun _ _ => rfl)⟩

/-- C4: an HTTP 200 response makes `hf_generate` return the first choice's
message content with surrounding whitespace trimmed, immediately: the sleeps
performed stay unchanged and exactly one further attempt is counted; in a run
whose first response is a 200 the whole call makes one attempt and no sleep. -/
theorem C4_success_returns_trimmed_once :
    (∀ (rs : Nat → HfResponse) (fuel attempt : Nat) (sleeps : List ℚ) (n : Nat) (c : String),
      rs attempt = HfResponse.ok c →
      hfLoop rs (fuel + 1) attempt sleeps n = ⟨pyStripS c, sleeps, n + 1⟩) ∧
    (∀ (rs : Nat → HfResponse) (c : String), rs 0 = HfResponse.ok c →
      hf_generate rs = ⟨pyStripS c, [], 1⟩) := by
  refine ⟨hfLoop_ok, ?_⟩
  intro rs c h
  rw [hf_generate]
  exact hfLoop_ok rs 2 0 [] 0 c h

/-- C4 witness: a 200 whose content is `" hello "` returns `"hello"` in one
attempt with no sleep. -/
theorem C4_success_returns_trimmed_once_witness :
    hf_generate (fun _ => HfResponse.ok " hello ") = ⟨"hello", [], 1⟩ := by
  rw [C4_success_returns_trimmed_once.2 (fun _ => HfResponse.ok " hello ") " hello " rfl]
  decide

/-- C5: a response whose status is neither 200 nor 429 nor 503 makes the
function return immediately — no retry, no sleep — a diagnostic string that
embeds the status code and at most the first 3500 characters of the body. -/
theorem C5_other_status_terminal :
    (∀ (rs : Nat → HfResponse) (fuel attempt : Nat) (sleeps : List ℚ) (n code : Nat)
      (body : String),
      rs attempt = HfResponse.status code body → code ≠ 200 → code ≠ 429 → code ≠ 503 →
      hfLoop rs (fuel + 1) attempt sleeps n = ⟨llmErrorMsg code body, sleeps, n + 1⟩) ∧
    (∀ (rs : Nat → HfResponse) (code : Nat) (body : String),
      rs 0 = HfResponse.status code body → code ≠ 200 → code ≠ 429 → code ≠ 503 →
      hf_generate rs = ⟨llmErrorMsg code body, [], 1⟩) ∧
    (∀ (code : Nat) (body : String), (llmErrorMsg code body).data =
      ("(LLM error " ++ toString code ++ ") ").data ++ body.data.take 3500 ++ ['…']) ∧
    (∀ body : String, (body.data.take 3500).length ≤ 3500) := by
  refine ⟨?_, ?_, ?_, ?_⟩
  · intro rs fuel attempt sleeps n code body h h200 h429 h503
    exact hfLoop_fail rs fuel attempt sleeps n code body h h429 h503
  · intro rs code body h h200 h429 h503
    rw [hf_generate]
    exact hfLoop_fail rs 2 0 [] 0 code body h h429 h503
  · intro code body
    simp [llmErrorMsg, String.data_append]
  · intro body
    exact List.length_take_le 3500 body.data

/-- C5 witness: a 404 with body `"denied"` returns the diagnostic string at
once, after a single attempt and no sleep. -/
theorem C5_other_status_terminal_witness :
    hf_generate (fun _ => HfResponse.status 404 "denied") =
      ⟨"(LLM error 404) denied…", [], 1⟩ := by
  rw [C5_other_status_terminal.2.1 (fun _ => HfResponse.status 404 "denied") 404 "denied"
    rfl (by decide) (by decide) (by decide)]
  decide

/-!  Context-capacity lemmas (claim C8). -/

theorem ctxAppend_length (l : List String) (s : String) :
    (ctxAppend l s).length = min (l.length + 1) 3 := by
  simp [ctxAppend]
  omega

/-- C8: a chat's history never holds more than 3 entries, however many
messages are appended, and appending to a full history evicts the oldest
entry first. -/
theorem C8_context_capacity :
    (∀ (msgs init : List String), init.length ≤ 3 →
      (msgs.foldl ctxAppend init).length ≤ 3) ∧
    (∀ msgs : List String, (msgs.foldl ctxAppend []).length ≤ 3) ∧
    (∀ (l : List String) (s : String), l.length = 3 →
      ctxAppend l s = l.drop 1 ++ [s]) := by
  have hstep : ∀ (msgs init : List String), init.length ≤ 3 →
      (msgs.foldl ctxAppend init).length ≤ 3 := by
    intro msgs
    induction msgs with
    | nil => intro init h; simpa using h
    | cons m ms ih =>
      intro init h
      rw [List.foldl_cons]
      apply ih
      rw [ctxAppend_length]
      omega
  refine ⟨hstep, fun msgs => hstep msgs [] (by simp), ?_⟩
  intro l s h
  rw [ctxAppend, h]
  rw [List.drop_append_of_le_length (by omega)]

/-- C8 witness: four appends starting from the empty history stay within 3
entries, and appending to a full history drops the oldest entry. -/
theorem C8_context_capacity_witness :
    (["m1", "m2", "m3", "m4"].foldl ctxAppend []).length ≤ 3 ∧
    ctxAppend ["a", "b", "c"] "d" = ["b", "c", "d"] := by
  refine ⟨C8_context_capacity.2.1 ["m1", "m2", "m3", "m4"], ?_⟩
  rw [C8_context_capacity.2.2 ["a", "b", "c"] "d" rfl]
  rfl

/-!  Cooldown-tracker claims (C1). -/

/-- C1 counterexample: chat 5 has no prior record, yet at monotonic clock
reading 50 the first-ever call returns `false` — the claim's "a first-ever
call for a chat returns true immediately" fails, because a missing entry is
read as time `0.0`. -/
theorem C1_counterexample :
    ((fun _ => none : CooldownMap) 5 = none) ∧
    (roast_allowed 50 (fun _ => none) 5).1 = false := by
  refine ⟨rfl, ?_⟩
  norm_num [roast_allowed]

/-- C1 (amended): `roast_allowed` treats a missing record as last-roast time 0,
so it returns true and atomically records `now` for the chat iff
`120 ≤ now - last` where `last` is the recorded time or 0 when no record
exists (hence a first-ever call returns true iff the monotonic clock reads at
least 120); otherwise it returns false and leaves the map unchanged. -/
theorem C1_roast_allowed_amended (now : ℚ) (st : CooldownMap) (chat : Int) :
    ((roast_allowed now st chat).1 = true ↔ 120 ≤ now - ((st chat).getD 0)) ∧
    ((roast_allowed now st chat).1 = true →
      (roast_allowed now st chat).2 chat = some now ∧
      ∀ c : Int, c ≠ chat → (roast_allowed now st chat).2 c = st c) ∧
    ((roast_allowed now st chat).1 = false → (roast_allowed now st chat).2 = st) := by
  simp only [roast_allowed]
  by_cases h : now - (st chat).getD 0 < 120
  · rw [if_pos h]
    refine ⟨?_, ?_, fun _ => rfl⟩
    · simp
      linarith
    · simp
  · rw [if_neg h]
    push_neg at h
    refine ⟨by simpa using h, fun _ => ⟨by simp, fun c hc => by simp [hc]⟩, ?_⟩
    simp

/-- C1 witness: at clock 500 with no record the call fires and records 500;
at clock 50 with no record it declines and leaves the map unchanged. -/
theorem C1_roast_allowed_amended_witness :
    (roast_allowed 500 (fun _ => none) 7).1 = true ∧
    (roast_allowed 500 (fun _ => none) 7).2 7 = some 500 ∧
    (roast_allowed 50 (fun _ => none) 7).2 = (fun _ => none : CooldownMap) := by
  have h1 := C1_roast_allowed_amended 500 (fun _ => none) 7
  have h2 := C1_roast_allowed_amended 50 (fun _ => none) 7
  have hb : (roast_allowed 500 (fun _ => none) 7).1 = true := by
    rw [h1.1]
    norm_num
  have hb2 : (roast_allowed 50 (fun _ => none) 7).1 = false := by
    have : ¬((roast_allowed 50 (fun _ => none) 7).1 = true) := by
      rw [h2.1]
      norm_num
    simpa using this
  exact ⟨hb, (h1.2.1 hb).1, h2.2.2 hb2⟩

/-!  Handler claims (C9, C10). -/

/-- C9: a group message whose normalized text starts with `/` is not recorded
in the chat context, yet is still classified for direct address and takes the
LLM reply path exactly when the classifier fires (the prompt being built from
the unchanged history). -/
theorem C9_command_messages (hist : List String) (userName : String) (m : Msg)
    (botUsername : String) (h : (normalize_text m.text).head? = some '/') :
    (on_text_core hist userName m botUsername).1 = hist ∧
    (on_text_core hist userName m botUsername).2 =
      (if should_answer_with_llm m botUsername then
        some (build_prompt (normalize_text m.text) hist botUsername) else none) := by
  simp only [on_text_core]
  rw [if_pos h]
  by_cases hs : should_answer_with_llm m botUsername = true
  · rw [if_pos hs, if_pos hs]
    exact ⟨rfl, rfl⟩
  · rw [if_neg hs, if_neg hs]
    exact ⟨rfl, rfl⟩

/-- C9 witness: the command message `/roast @bot now` mentioning the bot
leaves the context untouched and still takes the LLM path. -/
theorem C9_command_messages_witness :
    (on_text_core ["ctx"] "u" ⟨"/roast @bot now".data, none⟩ "bot").1 = ["ctx"] ∧
    (on_text_core ["ctx"] "u" ⟨"/roast @bot now".data, none⟩ "bot").2 =
      some (build_prompt (normalize_text "/roast @bot now".data) ["ctx"] "bot") := by
  have h := C9_command_messages ["ctx"] "u" ⟨"/roast @bot now".data, none⟩ "bot" (by decide)
  refine ⟨h.1, ?_⟩
  rw [h.2, if_pos (by decide)]

/-!  The degenerate empty-username case (claim C10). -/

theorem toLower_eq_at_iff (c : Char) : c.toLower = '@' ↔ c = '@' := by
  constructor
  · intro h
    rw [Char.toLower] at h
    split at h
    · exfalso
      rename_i hn
      have hv : (Char.toNat c + 32).isValidChar := Or.inl (by omega)
      have h64 : (Char.ofNat (Char.toNat c + 32)).toNat = Char.toNat c + 32 := by
        rw [Char.ofNat, dif_pos hv]
        simp [Char.ofNatAux, Char.toNat, UInt32.toNat, BitVec.toNat_ofNatLt]
      rw [h] at h64
      have h40 : ('@').toNat = 64 := by decide
      omega
    · exact h
  · intro h
    subst h
    decide

theorem matchCI_at (c : Char) (rest : List Char) :
    matchCI ['@'] (c :: rest) = (c == '@') := by
  simp only [matchCI, Bool.and_true]
  by_cases h : c = '@'
  · subst h
    decide
  · have h1 : (c.toLower == ('@').toLower) = false := by
      rw [beq_eq_false_iff_ne]
      intro hh
      exact h ((toLower_eq_at_iff c).mp hh)
    have h2 : (c == '@') = false := by
      rw [beq_eq_false_iff_ne]
      exact h
    rw [h1, h2]

theorem reSubCI_single_at (l : List Char) :
    reSubCI '@' [] l = l.filter (fun c => !(c == '@')) := by
  induction l with
  | nil => simp [reSubCI]
  | cons c rest ih =>
    rw [reSubCI, matchCI_at c rest]
    by_cases h : c = '@'
    · subst h
      simp only [beq_self_eq_true, if_true, List.length_nil, List.drop_zero]
      rw [ih]
      simp [List.filter]
    · have h2 : (c == '@') = false := by
        rw [beq_eq_false_iff_ne]
        exact h
      rw [h2]
      simp only [Bool.false_eq_true, if_false]
      rw [ih]
      simp [List.filter, h2]

/-- C10: with the empty bot username (as passed when `context.bot.username` is
`None`), the mention check never classifies a message as direct address, and
the prompt builder's pattern degenerates to `"@"`, so every `@` character is
removed from the user text, not only bot mentions. -/
theorem C10_empty_bot_username :
    (∀ text : List Char, should_answer_with_llm ⟨text, none⟩ "" = false) ∧
    (∀ m : Msg, should_answer_with_llm m "" = (m.replySenderUsername == some "")) ∧
    (∀ text : List Char, cleanedText "" text =
      (pyStrip (text.filter (fun c => !(c == '@')))).take 800) := by
  refine ⟨?_, ?_, ?_⟩
  · intro text
    simp [should_answer_with_llm]
  · intro m
    simp [should_answer_with_llm]
  · intro text
    show (pyStrip (reSubCI '@' [] text)).take 800 = _
    rw [reSubCI_single_at]

/-!  Mention-removal refinement (claim C7): `reSubCI`, the left-to-right
scanner embedding `re.sub`, equals the spec-phrased "repeatedly delete the
leftmost case-insensitive occurrence" formulation. -/

/-- Index of the leftmost case-insensitive match of `pat`, if any. -/
def findCI (pat : List Char) : List Char → Option Nat
  | [] => none
  | c :: rest =>
    if matchCI pat (c :: rest) then some 0
    else (findCI pat rest).map (· + 1)

theorem findCI_lt_length (p : Char) (ps l : List Char) (i : Nat)
    (h : findCI (p :: ps) l = some i) : i < l.length := by
  induction l generalizing i with
  | nil => exact Option.noConfusion h
  | cons c rest ih =>
    rw [findCI] at h
    by_cases hm : matchCI (p :: ps) (c :: rest) = true
    · rw [if_pos hm] at h
      injection h with h0
      subst h0
      simp
    · rw [if_neg hm] at h
      cases hr : findCI (p :: ps) rest with
      | none => rw [hr] at h; simp at h
      | some j =>
        rw [hr] at h
        simp at h
        have := ih j hr
        simp only [List.length_cons]
        omega

/-- Modelled from the spec sentence "strip any occurrence of the bot's own
@handle mention from the triggering text (case-insensitive)": repeatedly find
the leftmost case-insensitive occurrence of the (nonempty) pattern `p :: ps`
and delete it. -/
def removeAllCI (p : Char) (ps : List Char) (l : List Char) : List Char :=
  match hf : findCI (p :: ps) l with
  | none => l
  | some i => l.take i ++ removeAllCI p ps ((l.drop i).drop (ps.length + 1))
termination_by l.length
decreasing_by
  have hi := findCI_lt_length p ps l i hf
  simp only [List.length_drop]
  omega

theorem removeAllCI_of_none (p : Char) (ps l : List Char)
    (h : findCI (p :: ps) l = none) : removeAllCI p ps l = l := by
  unfold removeAllCI
  split
  · rfl
  · rename_i i heq
    rw [h] at heq
    cases heq

theorem removeAllCI_of_some (p : Char) (ps l : List Char) (i : Nat)
    (h : findCI (p :: ps) l = some i) :
    removeAllCI p ps l = l.take i ++ removeAllCI p ps ((l.drop i).drop (ps.length + 1)) := by
  conv_lhs => rw [removeAllCI.eq_def]
  split
  · rename_i heq
    rw [h] at heq
    cases heq
  · rename_i j heq
    rw [h] at heq
    injection heq with hj
    subst hj
    rfl

/-- The `re.sub` scanner and the leftmost-occurrence deletion loop agree. -/
theorem reSubCI_eq_removeAllCI (p : Char) (ps l : List Char) :
    reSubCI p ps l = removeAllCI p ps l := by
  match l with
  | [] =>
    rw [removeAllCI_of_none p ps [] rfl]
    simp [reSubCI]
  | c :: rest =>
    by_cases hm : matchCI (p :: ps) (c :: rest) = true
    · have hfnd : findCI (p :: ps) (c :: rest) = some 0 := by
        rw [findCI, if_pos hm]
      rw [removeAllCI_of_some p ps (c :: rest) 0 hfnd]
      rw [reSubCI, if_pos hm]
      simp only [List.take_zero, List.drop_zero, List.nil_append, List.drop_succ_cons]
      exact reSubCI_eq_removeAllCI p ps (rest.drop ps.length)
    · have hfnd : findCI (p :: ps) (c :: rest) = (findCI (p :: ps) rest).map (· + 1) := by
        rw [findCI, if_neg hm]
      rw [reSubCI, if_neg hm]
      cases hr : findCI (p :: ps) rest with
      | none =>
        rw [removeAllCI_of_none p ps (c :: rest) (by rw [hfnd, hr]; rfl)]
        rw [reSubCI_eq_removeAllCI p ps rest, removeAllCI_of_none p ps rest hr]
      | some j =>
        rw [removeAllCI_of_some p ps (c :: rest) (j + 1) (by rw [hfnd, hr]; rfl)]
        rw [List.take_succ_cons, List.drop_succ_cons]
        rw [reSubCI_eq_removeAllCI p ps rest, removeAllCI_of_some p ps rest j hr]
        simp
termination_by l.length
decreasing_by
· simp only [List.length_cons, List.length_drop]
  omega
· simp
· simp

/-- C7: `build_prompt` removes every case-insensitive occurrence of the bot's
own `@handle` mention from the user text (the embedded `re.sub` scan equals
leftmost-occurrence deletion), the cleaned text embedded in the prompt is at
most 800 characters, and the prompt's context block uses at most the last 2
entries of the chat's history. -/
theorem C7_build_prompt_bounds :
    (∀ (botUsername : String) (userText : List Char),
      cleanedText botUsername userText =
        (pyStrip (removeAllCI '@' botUsername.data userText)).take 800) ∧
    (∀ (botUsername : String) (userText : List Char),
      (cleanedText botUsername userText).length ≤ 800) ∧
    (∀ hist : List String, (lastTwo hist).length ≤ 2) ∧
    (∀ hist : List String, ∃ pre, hist = pre ++ lastTwo hist) ∧
    (∀ (userText : List Char) (hist : List String) (botUsername : String),
      build_prompt userText hist botUsername =
        "You are a bot in a telegram groupchat. Reply in 1-4 sentences and be helpful and clear\n\nRecent chat context:\n"
          ++ String.intercalate "\n" ((lastTwo hist).map (fun h => "- " ++ h))
          ++ "\n\nThe user is addressing you directly and asked:\n"
          ++ String.mk (cleanedText botUsername userText)
          ++ "\n\nReply:") := by
  refine ⟨?_, ?_, ?_, ?_, ?_⟩
  · intro botUsername userText
    rw [cleanedText, reSubCI_eq_removeAllCI]
  · intro botUsername userText
    exact List.length_take_le 800 _
  · intro hist
    simp only [lastTwo, List.length_drop]
    omega
  · intro hist
    exact ⟨hist.take (hist.length - 2), (List.take_append_drop _ _).symm⟩
  · intro userText hist botUsername
    rfl

/-!  Reply post-processing lemmas (claim C6). -/

theorem rsplitHead_of_no_space (l : List Char) (h : ' ' ∉ l) : rsplitHead l = l := by
  rw [rsplitHead, if_neg]
  intro hc
  exact h (List.elem_iff.mp hc)

/-- `rsplitHead` cuts exactly at the *last* space: the input decomposes as
the result, one space, and a space-free tail. -/
theorem rsplitHead_spec (l : List Char) (h : ' ' ∈ l) :
    ∃ t, l = rsplitHead l ++ ' ' :: t ∧ ' ' ∉ t := by
  induction l using List.reverseRecOn with
  | nil => simp at h
  | append_singleton l a ih =>
    by_cases ha : a = ' '
    · subst ha
      refine ⟨[], ?_, by simp⟩
      have hr : rsplitHead (l ++ [' ']) = l := by
        rw [rsplitHead, if_pos (List.elem_iff.mpr (by simp))]
        rw [List.reverse_append]
        simp only [List.reverse_cons, List.reverse_nil, List.nil_append, List.singleton_append]
        rw [List.dropWhile_cons, if_neg (by decide)]
        simp
      rw [hr]
    · have hl : ' ' ∈ l := by
        rcases List.mem_append.mp h with h1 | h2
        · exact h1
        · simp at h2
          exact absurd h2.symm ha
      obtain ⟨t, hlt, hnt⟩ := ih hl
      have hpa : ((fun c => !(c == ' ')) a) = true := by
        simp [ha]
      have hr : rsplitHead (l ++ [a]) = rsplitHead l := by
        have hc1 : (l ++ [a]).contains ' ' = true :=
          List.elem_iff.mpr (List.mem_append.mpr (Or.inl hl))
        have hc2 : l.contains ' ' = true := List.elem_iff.mpr hl
        unfold rsplitHead
        rw [if_pos hc1, if_pos hc2]
        rw [List.reverse_append]
        simp only [List.reverse_cons, List.reverse_nil, List.nil_append, List.singleton_append]
        rw [List.dropWhile_cons, if_pos hpa]
      refine ⟨t ++ [a], ?_, ?_⟩
      · rw [hr]
        conv_lhs => rw [hlt]
        simp
      · intro hmem
        rcases List.mem_append.mp hmem with h1 | h2
        · exact hnt h1
        · simp at h2
          exact ha h2.symm

theorem rsplitHead_length_le (l : List Char) : (rsplitHead l).length ≤ l.length := by
  rw [rsplitHead]
  split
  · have h2 : ((l.reverse.dropWhile fun c => !(c == ' ')).length) ≤ l.reverse.length :=
      (List.dropWhile_sublist _).length_le
    simp only [List.length_reverse, List.length_drop] at h2 ⊢
    omega
  · exact le_refl _

/-- The final truncation step never produces more than 3501 characters. -/
theorem postAux_length_le (r : List Char) :
    (if 3500 < r.length then String.mk (rsplitHead (r.take 3500) ++ ['…'])
      else String.mk r).length ≤ 3501 := by
  split
  · rename_i hlen
    show (rsplitHead (r.take 3500) ++ ['…']).length ≤ 3501
    rw [List.length_append]
    have h1 := rsplitHead_length_le (r.take 3500)
    have h2 := List.length_take_le 3500 r
    simp only [List.length_cons, List.length_nil]
    omega
  · rename_i hlen
    show r.length ≤ 3501
    omega

/-- `(postprocess reply).length ≤ 3501` for every reply. -/
theorem postprocess_length_le (reply : String) : (postprocess reply).length ≤ 3501 := by
  rw [postprocess]
  exact postAux_length_le _

/-!  The C6 counterexample input: 3501 characters whose only whitespace is a
newline, so the space-based cut of the code and the whitespace-based cut of
the spec disagree. -/

/-- 1750 letters `a`. -/
def A1750 : List Char := List.replicate 1750 'a'

/-- `aaaa…a` (1750), newline, `aaaa…a` (1750): 3501 characters. -/
def nlData : List Char := A1750 ++ '\n' :: A1750

/-- The counterexample reply string. -/
def nlReply : String := String.mk nlData

/-- Modelled from the spec sentence "truncated at the last whitespace boundary
before that limit and suffixed with an ellipsis marker": the same
post-processing pipeline, but cutting at the last *whitespace* character. -/
def wsRsplitHead (l : List Char) : List Char :=
  if l.any pyIsSpace then ((l.reverse.dropWhile (fun c => !pyIsSpace c)).drop 1).reverse
  else l

/-- Modelled from the spec's post-processing description, with the
whitespace-boundary cut. -/
def postprocessSpecWS (reply : String) : String :=
  let r := pyStrip reply.data
  let r := if r.isEmpty then emptyReplyFallback.data else r
  if 3500 < r.length then String.mk (wsRsplitHead (r.take 3500) ++ ['…'])
  else String.mk r

theorem dropWhile_replicate_append (p : Char → Bool) (a : Char) (h : p a = true)
    (k : Nat) (l : List Char) :
    (List.replicate k a ++ l).dropWhile p = l.dropWhile p := by
  induction k with
  | zero => simp
  | succ k ih =>
    rw [List.replicate_succ, List.cons_append, List.dropWhile_cons, if_pos h]
    exact ih

theorem dropWhile_eq_self_replicate (p : Char → Bool) (a : Char) (h : p a = false)
    (k : Nat) (l : List Char) :
    (List.replicate (k + 1) a ++ l).dropWhile p = List.replicate (k + 1) a ++ l := by
  rw [List.replicate_succ, List.cons_append, List.dropWhile_cons, if_neg (by simp [h])]

theorem A1750_reverse : A1750.reverse = A1750 := by
  rw [A1750, List.reverse_replicate]

theorem nlData_reverse : nlData.reverse = nlData := by
  show (A1750 ++ '\n' :: A1750).reverse = A1750 ++ '\n' :: A1750
  rw [List.reverse_append, List.reverse_cons, A1750_reverse, List.append_assoc,
    List.singleton_append]

theorem nlData_dropWhile : nlData.dropWhile pyIsSpace = nlData := by
  show (A1750 ++ '\n' :: A1750).dropWhile pyIsSpace = A1750 ++ '\n' :: A1750
  have : A1750 = List.replicate (1749 + 1) 'a' := rfl
  rw [this, dropWhile_eq_self_replicate pyIsSpace 'a' (by decide)]

theorem nlData_strip : pyStrip nlData = nlData := by
  rw [pyStrip, nlData_dropWhile, nlData_reverse, nlData_dropWhile, nlData_reverse]

theorem A1750_length : A1750.length = 1750 := by
  rw [A1750, List.length_replicate]

theorem nlData_length : nlData.length = 3501 := by
  show (A1750 ++ '\n' :: A1750).length = 3501
  rw [List.length_append, List.length_cons, A1750_length]

theorem nlData_take : nlData.take 3500 = A1750 ++ '\n' :: List.replicate 1749 'a' := by
  show (A1750 ++ '\n' :: A1750).take 3500 = _
  rw [List.take_append_eq_append_take, List.take_of_length_le (by rw [A1750_length]; omega)]
  have hlen : 3500 - A1750.length = 1749 + 1 := by
    rw [A1750_length]
  rw [hlen, List.take_succ_cons]
  have htk : A1750.take 1749 = List.replicate 1749 'a' := by
    rw [A1750, List.take_replicate]
    congr 1
  rw [htk]

theorem nlData_take_no_space : ' ' ∉ nlData.take 3500 := by
  rw [nlData_take]
  intro h
  rcases List.mem_append.mp h with h1 | h2
  · rw [A1750] at h1
    exact absurd (List.mem_replicate.mp h1).2 (by decide)
  · rcases List.mem_cons.mp h2 with h3 | h4
    · exact absurd h3 (by decide)
    · exact absurd (List.mem_replicate.mp h4).2 (by decide)

theorem postprocess_nlReply : postprocess nlReply = String.mk (nlData.take 3500 ++ ['…']) := by
  have hne : ¬(nlData.isEmpty = true) := by
    rw [List.isEmpty_iff]
    intro hh
    have := congrArg List.length hh
    rw [nlData_length] at this
    simp at this
  have hd : pyStrip nlReply.data = nlData := nlData_strip
  simp only [postprocess, hd]
  rw [if_neg hne, if_pos (by rw [nlData_length]; norm_num)]
  rw [rsplitHead_of_no_space _ nlData_take_no_space]

theorem postprocess_nlReply_length : (postprocess nlReply).length = 3501 := by
  rw [postprocess_nlReply]
  show (nlData.take 3500 ++ ['…']).length = 3501
  simp only [List.length_append, List.length_take, nlData_length, List.length_cons,
    List.length_nil]
  omega

theorem wsRsplitHead_nlData_take : wsRsplitHead (nlData.take 3500) = A1750 := by
  rw [nlData_take, wsRsplitHead]
  rw [if_pos (List.any_eq_true.mpr ⟨'\n', List.mem_append.mpr (Or.inr (List.mem_cons_self _ _)),
    by decide⟩)]
  have hrev : (A1750 ++ '\n' :: List.replicate 1749 'a').reverse
      = List.replicate 1749 'a' ++ '\n' :: A1750 := by
    rw [List.reverse_append, List.reverse_cons, List.reverse_replicate, A1750_reverse,
      List.append_assoc, List.singleton_append]
  rw [hrev, dropWhile_replicate_append _ 'a' (by decide), List.dropWhile_cons,
    if_neg (by decide)]
  show (('\n' :: A1750).drop 1).reverse = A1750
  rw [List.drop_succ_cons, List.drop_zero, A1750_reverse]

theorem specWS_nlReply : postprocessSpecWS nlReply = String.mk (A1750 ++ ['…']) := by
  have hne : ¬(nlData.isEmpty = true) := by
    rw [List.isEmpty_iff]
    intro hh
    have := congrArg List.length hh
    rw [nlData_length] at this
    simp at this
  have hd : pyStrip nlReply.data = nlData := nlData_strip
  simp only [postprocessSpecWS, hd]
  rw [if_neg hne, if_pos (by rw [nlData_length]; norm_num)]
  rw [wsRsplitHead_nlData_take]

theorem specWS_nlReply_length : (postprocessSpecWS nlReply).length = 1751 := by
  rw [specWS_nlReply]
  show (A1750 ++ ['…']).length = 1751
  rw [List.length_append, A1750_length]
  rfl

/-- C6 counterexample: on the 3501-character reply `nlReply`, whose only
whitespace is a newline at position 1750, the code returns the full 3500-char
prefix plus an ellipsis (no space to cut at), while the claim's "truncated at
the last whitespace boundary" would cut at the newline: the two outputs
differ (lengths 3501 vs 1751). -/
theorem C6_counterexample :
    postprocess nlReply ≠ postprocessSpecWS nlReply ∧
    (postprocess nlReply).length = 3501 ∧
    (postprocessSpecWS nlReply).length = 1751 := by
  refine ⟨?_, postprocess_nlReply_length, specWS_nlReply_length⟩
  intro h
  have h1 := postprocess_nlReply_length
  rw [h, specWS_nlReply_length] at h1
  exact absurd h1 (by norm_num)

/-- C6 (amended): the caller replaces an empty or whitespace-only reply with
the fixed clarifying prompt; a reply whose stripped form exceeds 3500
characters is cut at the last *space* character of its first 3500 characters
(kept whole when no space occurs there) and suffixed with an ellipsis; the
sent reply is always at most 3501 characters. -/
theorem C6_postprocess_amended :
    (∀ reply : String, (postprocess reply).length ≤ 3501) ∧
    (∀ reply : String, pyStrip reply.data = [] → postprocess reply = emptyReplyFallback) ∧
    (∀ reply : String, 3500 < (pyStrip reply.data).length →
      postprocess reply = String.mk (rsplitHead ((pyStrip reply.data).take 3500) ++ ['…'])) ∧
    (∀ l : List Char, ' ' ∉ l → rsplitHead l = l) ∧
    (∀ l : List Char, ' ' ∈ l → ∃ t, l = rsplitHead l ++ ' ' :: t ∧ ' ' ∉ t) := by
  refine ⟨postprocess_length_le, ?_, ?_, rsplitHead_of_no_space, rsplitHead_spec⟩
  · intro reply h
    simp only [postprocess, h, List.isEmpty_nil]
    rw [if_pos trivial, if_neg (by decide)]
  · intro reply h
    have hne : ¬((pyStrip reply.data).isEmpty = true) := by
      rw [List.isEmpty_iff]
      intro hh
      rw [hh] at h
      simp at h
    simp only [postprocess]
    rw [if_neg hne, if_pos h]

/-- C6 amended witness: a whitespace-only reply becomes the clarifying prompt;
the 3501-character `nlReply` is cut per the space rule; `"xyz"` has no space
and is kept whole by the cut; `"a b"` decomposes at its last space. -/
theorem C6_postprocess_amended_witness :
    postprocess " \t " = emptyReplyFallback ∧
    postprocess nlReply = String.mk (rsplitHead ((pyStrip nlReply.data).take 3500) ++ ['…']) ∧
    rsplitHead "xyz".data = "xyz".data ∧
    (∃ t, "a b".data = rsplitHead "a b".data ++ ' ' :: t ∧ ' ' ∉ t) :=
  ⟨C6_postprocess_amended.2.1 " \t " (by decide),
    C6_postprocess_amended.2.2.1 nlReply
      (by show 3500 < (pyStrip nlData).length; rw [nlData_strip, nlData_length]; norm_num),
    C6_postprocess_amended.2.2.2.1 "xyz".data (by decide),
    C6_postprocess_amended.2.2.2.2 "a b".data (by decide)⟩

end Sophie
